import Mathlib

/-!
Shallow embedding of the AXIS+Construct appraisal engine (`axis_app.py`).

The Python program's heuristic core is pure text processing:
sentence segmentation, line-based sectionization, regex pattern search,
knowledge-base alias detection, and two per-item scorers.  Each Python
function is translated into an executable Lean definition over `String`
(viewed as `List Char`); the fixed regular expressions are expanded into
their finite phrase disjunctions, with `\b` word boundaries, case
insensitivity (ASCII, as in the source's inputs) and substring search
modelled explicitly.  Dictionaries are modelled as insertion-ordered
association lists with unique keys, matching CPython `dict` semantics.
-/

open List

namespace Axis

/-- Word character test for the regex `\b` boundary: ASCII `[A-Za-z0-9_]`. -/
def isWordChar (c : Char) : Bool := c.isAlphanum || c == '_'

/-- Whitespace class of Python's regex `\s` (ASCII part). -/
def pyIsSpace (c : Char) : Bool :=
  c == ' ' || c == '\t' || c == '\n' || c == '\r' || c == '\x0B' || c == '\x0C'

/-- Core of `re.sub(r'\s+', ' ', text)`: collapse every whitespace run to a
single space.  The boolean flag records whether the previous character was
whitespace (run already emitted). -/
def collapseAux : Bool → List Char → List Char
  | _, [] => []
  | prev, c :: rest =>
    if pyIsSpace c then
      if prev then collapseAux true rest else ' ' :: collapseAux true rest
    else c :: collapseAux false rest

/-- Python `re.sub(r'\s+', ' ', text)` as used in `sentences`. -/
def collapseWS (s : String) : String := String.mk (collapseAux false s.data)

/-- Python `str.splitlines()` restricted to the `\n`, `\r`, `\r\n`
terminators: terminators are consumed, and a trailing terminator does not
produce a final empty line. -/
def pySplitLinesGo : List Char → List Char → List String
  | [], acc => if acc.isEmpty then [] else [String.mk acc.reverse]
  | '\r' :: '\n' :: rest, acc => String.mk acc.reverse :: pySplitLinesGo rest []
  | '\r' :: rest, acc => String.mk acc.reverse :: pySplitLinesGo rest []
  | '\n' :: rest, acc => String.mk acc.reverse :: pySplitLinesGo rest []
  | c :: rest, acc => pySplitLinesGo rest (c :: acc)

/-- Python `text.splitlines()` as used in `sectionize`. -/
def pySplitLines (s : String) : List String := pySplitLinesGo s.data []

/-- Strip characters satisfying `pyIsSpace` from both ends of a list. -/
def stripChars (cs : List Char) : List Char :=
  ((cs.dropWhile pyIsSpace).reverse.dropWhile pyIsSpace).reverse

/-- Python `str.strip()` (whitespace strip, ASCII part). -/
def pyStrip (s : String) : String := String.mk (stripChars s.data)

/-- Split condition of the regex
`SPLIT = (?<=\.)\s+(?=[A-Z\(])|(?<=[!?])\s+` at a whitespace position:
`acc` is the reversed prefix already read (head = previous character) and
`rest` is what follows the whitespace. -/
def splitHere (acc rest : List Char) : Bool :=
  match acc with
  | '.' :: _ =>
    match rest with
    | c :: _ => c.isUpper || c == '('
    | [] => false
  | '!' :: _ => true
  | '?' :: _ => true
  | _ => false

/-- Core of `SPLIT.split(clean)` on whitespace-collapsed text (every
whitespace run is a single space, so `\s+` matches exactly one space). -/
def splitSentencesAux : List Char → List Char → List String
  | [], acc => [String.mk acc.reverse]
  | c :: rest, acc =>
    if c == ' ' && splitHere acc rest then
      String.mk acc.reverse :: splitSentencesAux rest []
    else
      splitSentencesAux rest (c :: acc)

/-- Python `sentences(text)`: collapse whitespace, split on sentence
boundaries, strip each piece and drop empty pieces. -/
def sentences (text : String) : List String :=
  ((splitSentencesAux (collapseWS text).data []).map pyStrip).filter
    (fun s => !(s == ""))

/-- Case-sensitive literal match of `pat` inside `hay` at offset `i`. -/
def matchesExactAt (hay pat : List Char) (i : Nat) : Bool :=
  (List.range pat.length).all (fun j => hay.get? (i + j) == pat.get? j)

/-- Python substring containment `pat in hay` (case-sensitive). -/
def hasSubstr (hay pat : String) : Bool :=
  (List.range (hay.data.length + 1)).any (fun i => matchesExactAt hay.data pat.data i)

/-- Python `str.lower()` (ASCII part, as `Char.toLower`). -/
def toLowerStr (s : String) : String := String.mk (s.data.map Char.toLower)

/-- Case-insensitive literal match of `pat` inside `hay` at offset `i`. -/
def matchesAtCI (hay pat : List Char) (i : Nat) : Bool :=
  (List.range pat.length).all
    (fun j => (hay.get? (i + j)).map Char.toLower == (pat.get? j).map Char.toLower)

/-- Whether the character at index `i` exists and is a word character. -/
def wordAtChar (cs : List Char) (i : Nat) : Bool :=
  match cs.get? i with
  | some c => isWordChar c
  | none => false

/-- Regex `\b` at position `i` (`0 ≤ i ≤ cs.length`): word-character-ness
differs between the left and right neighbours of the position. -/
def wordBoundary (cs : List Char) (i : Nat) : Bool :=
  (decide (0 < i) && wordAtChar cs (i - 1)) != wordAtChar cs i

/-- Python `re.search(rf'\b{re.escape(pat)}\b', hay, re.I)` as a boolean:
some offset carries a case-insensitive literal match of `pat` flanked by
`\b` boundaries. -/
def searchBoundedCI (cs pat : List Char) : Bool :=
  (List.range (cs.length + 1)).any
    (fun i => matchesAtCI cs pat i && wordBoundary cs i && wordBoundary cs (i + pat.length))

/-- Case-insensitive substring search (a regex alternation of escaped
literals with no `\b`, as in the subcomponents pattern). -/
def containsCI (cs pat : List Char) : Bool :=
  (List.range (cs.length + 1)).any (fun i => matchesAtCI cs pat i)

/-- Disjunction of `\b`-bounded case-insensitive phrase alternatives:
`\b(p₁|p₂|…)\b` matches somewhere iff some `\bpᵢ\b` matches somewhere. -/
def wordAny (ps : List String) (s : String) : Bool :=
  ps.any (fun p => searchBoundedCI s.data p.data)

/-- Pattern `RE_DEF = \b(defined as|we define|is defined as|refers to)\b`. -/
def reDef (s : String) : Bool :=
  wordAny ["defined as", "we define", "is defined as", "refers to"] s

/-- Pattern `RE_BOUNDARY` (boundary language), alternatives expanded. -/
def reBoundary (s : String) : Bool :=
  wordAny ["distinct from", "differs from", "as opposed to", "not merely",
    "boundary", "scope condition", "scope conditions"] s

/-- Pattern `RE_THEORY`, with `dual[\s-]?systems?` expanded over the
whitespace actually present in collapsed sentence text. -/
def reTheory (s : String) : Bool :=
  wordAny ["model", "mechanism", "dualsystem", "dualsystems", "dual system",
    "dual systems", "dual-system", "dual-systems", "process model",
    "expected value of control", "valuation", "control theory"] s

/-- Pattern `RE_VALIDITY`, `[- ]` classes expanded. -/
def reValidity (s : String) : Bool :=
  wordAny ["convergent", "discriminant", "criterion", "predictive",
    "known-groups", "known groups", "response-process", "response process",
    "factor validity"] s

/-- Pattern `RE_RELIAB`, `test[- ]?retest` expanded. -/
def reReliab (s : String) : Bool :=
  wordAny ["alpha", "cronbach", "omega", "testretest", "test-retest",
    "test retest", "ICC"] s

/-- Pattern `RE_DESIGN`, character classes expanded. -/
def reDesign (s : String) : Bool :=
  wordAny ["randomised", "randomized", "experiment", "intervention",
    "longitudinal", "cross-sectional", "cross sectional", "pre-post",
    "pre post", "RCT"] s

/-- Pattern `RE_FUND = \bfund(ing|ed)|grant|sponsor|conflict of interest|COI\b`.
The `\b` binds only to the first and last alternatives, so the middle
alternatives are plain substring searches. -/
def reFund (s : String) : Bool :=
  (List.range (s.data.length + 1)).any
    (fun i => (matchesAtCI s.data "funding".data i || matchesAtCI s.data "funded".data i)
      && wordBoundary s.data i)
  || containsCI s.data "grant".data
  || containsCI s.data "sponsor".data
  || containsCI s.data "conflict of interest".data
  || (List.range (s.data.length + 1)).any
    (fun i => matchesAtCI s.data "COI".data i && wordBoundary s.data (i + 3))

/-- Pattern `RE_ETHICS = \b(IRB|ethic(al)? committee|approved|consent)\b`. -/
def reEthics (s : String) : Bool :=
  wordAny ["IRB", "ethic committee", "ethical committee", "approved", "consent"] s

/-- Aims pattern `\b(aim|objective|we (aim|seek)|research question)\b`. -/
def reAims (s : String) : Bool :=
  wordAny ["aim", "objective", "we aim", "we seek", "research question"] s

/-- Sampling pattern `\b(sample|participants?|recruit|eligibility|inclusion|exclusion)\b`. -/
def reSampling (s : String) : Bool :=
  wordAny ["sample", "participant", "participants", "recruit", "eligibility",
    "inclusion", "exclusion"] s

/-- Confounding pattern `\b(confound|control(?:s|led)?|covariate|adjust(ed|ment))\b`. -/
def reConfound (s : String) : Bool :=
  wordAny ["confound", "control", "controls", "controlled", "covariate",
    "adjusted", "adjustment"] s

/-- Statistical-methods pattern
`\b(regression|ANOVA|mixed[- ]effects|model|estimat|hypothesis test|assumption)\b`. -/
def reStats (s : String) : Bool :=
  wordAny ["regression", "ANOVA", "mixed-effects", "mixed effects", "model",
    "estimat", "hypothesis test", "assumption"] s

/-- Precision pattern `\b(effect size|confidence interval|CI|standard error|p\s*<)\b`;
on collapsed sentence text `\s*` is empty or a single space, and the generic
boundary test gives the exact `\b` semantics after the non-word `<`. -/
def rePrecision (s : String) : Bool :=
  wordAny ["effect size", "confidence interval", "CI", "standard error",
    "p<", "p <"] s

/-- Conclusions pattern `\b(limit|caution|consistent with|cannot infer causality)\b`. -/
def reConcl (s : String) : Bool :=
  wordAny ["limit", "caution", "consistent with", "cannot infer causality"] s

/-- Fit-index pattern `\b(CFI|TLI|RMSEA|SRMR|CFA|factor)\b`. -/
def reFit (s : String) : Bool :=
  wordAny ["CFI", "TLI", "RMSEA", "SRMR", "CFA", "factor"] s

/-- The default-branch pattern `re.compile(r'.')`: a sentence matches iff it
has a character other than a newline. -/
def reAnyChar (s : String) : Bool := s.data.any (fun c => !(c == '\n'))

/-- Python `find_hits(blob, pattern, maxn)`: sentence-segment, keep matching
sentences in order, truncate to `maxn`. -/
def findHits (blob : String) (p : String → Bool) (maxn : Nat) : List String :=
  ((sentences blob).filter p).take maxn

/-- The alternatives of `SECTION_HEAD`, each in its `str.title()` form; the
optional `s?` groups contribute the singular variants. -/
def headWords : List String :=
  ["Abstract", "Introduction", "Background", "Theory", "Method", "Methods",
   "Measure", "Measures", "Participant", "Participants", "Procedure",
   "Result", "Results", "Discussion", "Conclusion", "Funding",
   "Acknowledgements", "Ethics"]

/-- `SECTION_HEAD.search(line.strip())` followed by `.group(0).title()`:
the leftmost whole-word case-insensitive occurrence of a heading word.
At a fixed offset at most one alternative can satisfy both `\b`s, so
alternation order is immaterial and the title-cased canonical form is
returned directly. -/
def findHeading (line : String) : Option String :=
  (List.range ((stripChars line.data).length + 1)).findSome?
    (fun i => headWords.find?
      (fun w => matchesAtCI (stripChars line.data) w.data i
        && wordBoundary (stripChars line.data) i
        && wordBoundary (stripChars line.data) (i + w.data.length)))

/-- Python `secs.setdefault(k, [])`: add the key with an empty buffer at the
end if absent. -/
def ensureKey (secs : List (String × List String)) (k : String) :
    List (String × List String) :=
  if secs.any (fun p => p.1 == k) then secs else secs ++ [(k, [])]

/-- Python `secs[k].append(line)` on a dict modelled as an ordered
association list: append to the first entry with key `k`, creating the
entry at the end if absent. -/
def appendToKey (secs : List (String × List String)) (k : String) (line : String) :
    List (String × List String) :=
  match secs with
  | [] => [(k, [line])]
  | (k', ls) :: rest =>
    if k' == k then (k', ls ++ [line]) :: rest
    else (k', ls) :: appendToKey rest k line

/-- One loop iteration of `sectionize`: on a heading, switch the current
section (creating it) and append the whole line there; otherwise append the
line to the current section. -/
def sectionizeStep (st : String × List (String × List String)) (line : String) :
    String × List (String × List String) :=
  match findHeading line with
  | some sec => (sec, appendToKey (ensureKey st.2 sec) sec line)
  | none => (st.1, appendToKey st.2 st.1 line)

/-- The section-name → line-buffer dict built by `sectionize` before the
final join, starting from current section `"Full Text"` with an empty
buffer. -/
def sectionizeRaw (text : String) : List (String × List String) :=
  ((pySplitLines text).foldl sectionizeStep ("Full Text", [("Full Text", [])])).2

/-- Python `sectionize(text)`: the buffers joined with newlines. -/
def sectionize (text : String) : List (String × String) :=
  (sectionizeRaw text).map (fun p => (p.1, String.intercalate "\n" p.2))

/-- Python `sections.get(h, "")` on the ordered association list (first
entry with the key; keys are unique by construction). -/
def sectGet (secs : List (String × String)) (k : String) : String :=
  match secs with
  | [] => ""
  | p :: rest => if p.1 == k then p.2 else sectGet rest k

/-- Buffer lookup with default `[]` on the raw section dict. -/
def bufGet (secs : List (String × List String)) (k : String) : List String :=
  match secs with
  | [] => []
  | p :: rest => if p.1 == k then p.2 else bufGet rest k

/-- A checklist item as configured (`id`, `label`, `guidance`,
`section_hint`, the latter read with `item.get("section_hint", [])`). -/
structure ChecklistItem where
  id : String
  label : String
  guidance : String
  sectionHint : List String
  deriving DecidableEq, Repr

/-- A construct node of the knowledge base (`canonical`, `neighbors`,
`subcomponents` label lists). -/
structure ConstructEntry where
  canonical : List String
  neighbors : List String
  subcomponents : List String
  deriving DecidableEq, Repr

/-- A measure node of the knowledge base (`aliases`, `type`, `targets`). -/
structure MeasureEntry where
  aliases : List String
  mtype : String
  targets : List String
  deriving DecidableEq, Repr

/-- The knowledge base `KB`: ordered dicts of constructs and measures. -/
structure KBase where
  constructs : List (String × ConstructEntry)
  measures : List (String × MeasureEntry)
  deriving DecidableEq, Repr

/-- One entry of `detect_measures`: `{"measure": mid, "alias": alias,
"type": mnode["type"], "targets": mnode["targets"]}`. -/
structure MeasureHit where
  measure : String
  malias : String
  mtype : String
  targets : List String
  deriving DecidableEq, Repr

/-- A proposal `{proposed, evidence, warnings}`; branches that return no
`"warnings"` key are read back with `.get("warnings", [])`, i.e. `[]`. -/
structure Proposal where
  proposed : String
  evidence : List String
  warnings : List String
  deriving DecidableEq, Repr

/-- Lexicographic character-list comparison (Python `str` `<=` on code
points), used to model `sorted`. -/
def strLeB : List Char → List Char → Bool
  | [], _ => true
  | _ :: _, [] => false
  | a :: as, b :: bs =>
    if a.val < b.val then true
    else if b.val < a.val then false
    else strLeB as bs

/-- Insertion step of the string sort. -/
def insertStr (a : String) : List String → List String
  | [] => [a]
  | b :: rest => if strLeB a.data b.data then a :: b :: rest else b :: insertStr a rest

/-- Python `sorted` on a list of strings (insertion sort; stability is
irrelevant because the input is duplicate-free). -/
def sortStrs : List String → List String
  | [] => []
  | a :: rest => insertStr a (sortStrs rest)

/-- Python `detect_construct_labels(blob)`: for every construct, the sorted
set of canonical/neighbor labels that match as case-insensitive whole words;
constructs with no match get no dict entry. -/
def detectConstructLabels (kb : KBase) (blob : String) : List (String × List String) :=
  kb.constructs.filterMap (fun p =>
    let matched := ((p.2.canonical ++ p.2.neighbors).filter
      (fun l => searchBoundedCI blob.data l.data)).dedup
    if matched.isEmpty then none else some (p.1, sortStrs matched))

/-- Python `detect_measures(blob)`: for every measure, the first alias (in
declared order) matching as a case-insensitive whole word yields one hit;
the remaining aliases of that measure are not scanned. -/
def detectMeasures (kb : KBase) (blob : String) : List MeasureHit :=
  kb.measures.filterMap (fun p =>
    (p.2.aliases.find? (fun a => searchBoundedCI blob.data a.data)).map
      (fun a => MeasureHit.mk p.1 a p.2.mtype p.2.targets))

/-- Python `map_targets(measures)`: construct-name → sorted set of
measure ids, in first-seen target order. -/
def mapTargets (ms : List MeasureHit) : List (String × List String) :=
  let keys := (ms.foldl (fun acc m => acc ++ m.targets) []).dedup
  keys.map (fun t =>
    (t, sortStrs ((ms.filter (fun m => m.targets.contains t)).map
      (fun m => m.measure)).dedup))

/-- The `subs` list of the subcomponents branch: every construct's
subcomponent phrases concatenated in knowledge-base order. -/
def allSubcomponents (kb : KBase) : List String :=
  kb.constructs.foldl (fun acc p => acc ++ p.2.subcomponents) []

/-- The dynamically built subcomponents pattern:
`re.compile("|".join(escaped subs), re.I) if subs else re.compile(r'')`.
With no phrases the pattern is empty and `search` succeeds on every string
(a zero-width match at offset 0); otherwise it is a case-insensitive
substring search for any phrase. -/
def subPatternMatch (subs : List String) (s : String) : Bool :=
  match subs with
  | [] => true
  | _ :: _ => subs.any (fun p => containsCI s.data p.data)

/-- Python repr of a list of ordinary strings, as interpolated by
`f"{k}: {v}"` in the jingle–jangle branch. -/
def pyReprStrList (xs : List String) : String :=
  let q := String.mk [Char.ofNat 39]
  "[" ++ String.intercalate ", " (xs.map (fun s => q ++ s ++ q)) ++ "]"

/-- Python truthiness fallback `a or b` for strings. -/
def strOr (a b : String) : String := if a == "" then b else a

/-- The joined hint text
`" ".join([sections.get(h, "") for h in item.get("section_hint", [])])`. -/
def joinHint (item : ChecklistItem) (secs : List (String × String)) : String :=
  String.intercalate " " (item.sectionHint.map (sectGet secs))

/-- The common result shape `{"proposed": "Yes" if hits else "Unclear",
"evidence": hits}`. -/
def mkYU (hits : List String) : Proposal :=
  Proposal.mk (if hits.isEmpty then "Unclear" else "Yes") hits []

/-- The ethical-branch result shape `{"proposed": "Yes" if hits else "N/A",
"evidence": hits}`. -/
def mkYNA (hits : List String) : Proposal :=
  Proposal.mk (if hits.isEmpty then "N/A" else "Yes") hits []

/-- Python `propose_axis_score(item, sections)`: label-substring dispatch in
source order over the lowercased label (the source's `sec_text` local is the
inlined `joinHint item secs`). -/
def proposeAxisScore (item : ChecklistItem) (secs : List (String × String)) : Proposal :=
  if hasSubstr (toLowerStr item.label) "aims" then
    mkYU (findHits (strOr (joinHint item secs) (sectGet secs "Full Text")) reAims 6)
  else if hasSubstr (toLowerStr item.label) "design appropriate" then
    mkYU (findHits (joinHint item secs) reDesign 6)
  else if hasSubstr (toLowerStr item.label) "sampling frame" then
    mkYU (findHits (joinHint item secs) reSampling 6)
  else if hasSubstr (toLowerStr item.label) "validity" then
    mkYU (findHits (joinHint item secs) reValidity 6)
  else if hasSubstr (toLowerStr item.label) "reliability" then
    mkYU (findHits (joinHint item secs) reReliab 6)
  else if hasSubstr (toLowerStr item.label) "confounding" then
    mkYU (findHits (joinHint item secs) reConfound 6)
  else if hasSubstr (toLowerStr item.label) "statistical methods" then
    mkYU (findHits (joinHint item secs) reStats 6)
  else if hasSubstr (toLowerStr item.label) "precision" then
    mkYU (findHits (joinHint item secs) rePrecision 6)
  else if hasSubstr (toLowerStr item.label) "conclusions justified" then
    mkYU (findHits (strOr (joinHint item secs) (sectGet secs "Discussion")) reConcl 6)
  else if hasSubstr (toLowerStr item.label) "funding" then
    mkYU (findHits (sectGet secs "Funding" ++ " " ++ sectGet secs "Acknowledgements") reFund 6)
  else if hasSubstr (toLowerStr item.label) "ethical" then
    mkYNA (findHits (sectGet secs "Ethics" ++ " " ++ sectGet secs "Method") reEthics 6)
  else
    Proposal.mk "Unclear"
      ((findHits (strOr (joinHint item secs) (sectGet secs "Full Text")) reAnyChar 6).take 3) []

/-- Python `propose_construct_score(citem, sections, full)`: label-substring
dispatch in source order, with the hint text falling back to the full text
by string truthiness. -/
def proposeConstructScore (kb : KBase) (citem : ChecklistItem)
    (secs : List (String × String)) (full : String) : Proposal :=
  if hasSubstr (toLowerStr citem.label) "definition" then
    mkYU (findHits (strOr (joinHint citem secs) full) reDef 6)
  else if hasSubstr (toLowerStr citem.label) "subcomponents" then
    mkYU (findHits (strOr (joinHint citem secs) full)
      (subPatternMatch (allSubcomponents kb)) 6)
  else if hasSubstr (toLowerStr citem.label) "model/theory" then
    mkYU (findHits (strOr (joinHint citem secs) full) reTheory 6)
  else if hasSubstr (toLowerStr citem.label) "measures align" then
    Proposal.mk
      (if (detectMeasures kb full).isEmpty then "No" else "Yes")
      ((detectMeasures kb full).map
        (fun m => m.malias ++ " → " ++ String.intercalate ", " m.targets))
      (if (detectConstructLabels kb full).any (fun p => p.1 == "self-control")
          && (detectMeasures kb full).any (fun m => m.measure == "GritS")
       then ["Jingle risk: SC label with Grit-S measure."] else [])
  else if hasSubstr (toLowerStr citem.label) "jingle–jangle" then
    Proposal.mk
      (if reBoundary full then "Yes"
       else if (detectConstructLabels kb full).isEmpty then "N/A" else "Unclear")
      ((detectConstructLabels kb full).map (fun p => p.1 ++ ": " ++ pyReprStrList p.2))
      []
  else if hasSubstr (toLowerStr citem.label) "evidence type supports" then
    Proposal.mk
      (if !(findHits full reValidity 6).isEmpty || !(findHits full reFit 6).isEmpty
       then "Yes" else "Unclear")
      (findHits full reValidity 3 ++ findHits full reFit 3) []
  else
    Proposal.mk "Unclear" [] []

/-- The scoring pipeline run on an uploaded article: sectionize the text
once, then score every AXIS item and every addendum item. -/
def runPipeline (axisItems addItems : List ChecklistItem) (kb : KBase)
    (text : String) : List (String × Proposal) × List (String × Proposal) :=
  let secs := sectionize text
  (axisItems.map (fun it => (it.id, proposeAxisScore it secs)),
   addItems.map (fun it => (it.id, proposeConstructScore kb it secs text)))

/-- Specification-level line/section assignment: each input line paired with
the section `sectionize` appends it to (the freshly opened section on a
heading line, the current section otherwise). -/
def lineSection (cur : String) : List String → List (String × String)
  | [] => []
  | l :: ls =>
    match findHeading l with
    | some sec => (sec, l) :: lineSection sec ls
    | none => (cur, l) :: lineSection cur ls

/-- The line/section assignment of a whole article, starting in
`"Full Text"`. -/
def lineAssign (text : String) : List (String × String) :=
  lineSection "Full Text" (pySplitLines text)

/-- The section-name vocabulary as the specification states it (a closed
15-word list); kept verbatim from the spec's words so it can be compared
with the heading words actually produced by `SECTION_HEAD`. -/
def specSectionVocab : List String :=
  ["Abstract", "Introduction", "Background", "Theory", "Method", "Methods",
   "Measures", "Participants", "Procedure", "Results", "Discussion",
   "Conclusion", "Funding", "Acknowledgements", "Ethics"]

/-- The five texts some branch of `propose_axis_score` can hand to
`find_hits`: the joined hint text, its Full-Text and Discussion fallbacks,
the Funding+Acknowledgements join and the Ethics+Method join. -/
def axisSearchBlobs (item : ChecklistItem) (secs : List (String × String)) :
    List String :=
  [strOr (joinHint item secs) (sectGet secs "Full Text"),
   joinHint item secs,
   strOr (joinHint item secs) (sectGet secs "Discussion"),
   sectGet secs "Funding" ++ " " ++ sectGet secs "Acknowledgements",
   sectGet secs "Ethics" ++ " " ++ sectGet secs "Method"]

/-- Concrete knowledge base used by witnesses: one construct
(`self-control`, no subcomponents) and one measure (`GritS` with alias
`Grit-S` targeting `self-control`), as described by the configuration
sketch in the spec. -/
def kb0 : KBase :=
  KBase.mk
    [("self-control", ConstructEntry.mk ["self-control"] ["willpower"] [])]
    [("GritS", MeasureEntry.mk ["Grit-S"] "questionnaire" ["self-control"])]

/-- Concrete checklist items used in witnesses and counterexamples. -/
def itemValidity : ChecklistItem := ChecklistItem.mk "q4" "validity" "" []

/-- An aims item with an empty section hint. -/
def itemAims : ChecklistItem := ChecklistItem.mk "q1" "aims" "" []

/-- An item whose label contains both an earlier dispatch phrase and
"ethical". -/
def itemAimsEthical : ChecklistItem := ChecklistItem.mk "qx" "aims and ethical" "" []

/-- A plain ethical item. -/
def itemEthical : ChecklistItem := ChecklistItem.mk "q13" "ethical" "" []

/-- The measures-align addendum item. -/
def itemAlign : ChecklistItem :=
  ChecklistItem.mk "c4" "Do measures align with construct?" "" []

/-- The subcomponents addendum item. -/
def itemSub : ChecklistItem :=
  ChecklistItem.mk "c2" "Are subcomponents specified?" "" []

/-- A conclusions-justified item with an empty section hint. -/
def itemConcl : ChecklistItem := ChecklistItem.mk "q10" "conclusions justified" "" []

/-- An item whose label matches no dispatch phrase (default branch). -/
def itemMisc : ChecklistItem := ChecklistItem.mk "q0" "overall quality" "" []

/-- The definition addendum item. -/
def itemDef : ChecklistItem :=
  ChecklistItem.mk "c1" "Is the construct definition clear?" "" []

end Axis

namespace Axis

/-- C1 (amended, full): with an empty joined hint text the fallbacks are
exactly the coded ones — the "aims" branch falls back to the "Full Text"
section, the default branch takes its up-to-3 placeholder sentences from
"Full Text", the "conclusions justified" branch falls back to the
"Discussion" section, and each of the seven other hint-driven rules
("design appropriate", "sampling frame", "validity", "reliability",
"confounding", "statistical methods", "precision") searches only the
joined hint text — here empty — and so returns `Unclear` with no evidence
no matter what the Full Text section contains. -/
theorem claim1_hint_fallback_amended (item : ChecklistItem)
    (secs : List (String × String)) (h : joinHint item secs = "") :
    (hasSubstr (toLowerStr item.label) "aims" = true →
      proposeAxisScore item secs = mkYU (findHits (sectGet secs "Full Text") reAims 6))
    ∧ (hasSubstr (toLowerStr item.label) "aims" = false →
       hasSubstr (toLowerStr item.label) "design appropriate" = true →
      proposeAxisScore item secs = Proposal.mk "Unclear" [] [])
    ∧ (hasSubstr (toLowerStr item.label) "aims" = false →
       hasSubstr (toLowerStr item.label) "design appropriate" = false →
       hasSubstr (toLowerStr item.label) "sampling frame" = true →
      proposeAxisScore item secs = Proposal.mk "Unclear" [] [])
    ∧ (hasSubstr (toLowerStr item.label) "aims" = false →
       hasSubstr (toLowerStr item.label) "design appropriate" = false →
       hasSubstr (toLowerStr item.label) "sampling frame" = false →
       hasSubstr (toLowerStr item.label) "validity" = true →
      proposeAxisScore item secs = Proposal.mk "Unclear" [] [])
    ∧ (hasSubstr (toLowerStr item.label) "aims" = false →
       hasSubstr (toLowerStr item.label) "design appropriate" = false →
       hasSubstr (toLowerStr item.label) "sampling frame" = false →
       hasSubstr (toLowerStr item.label) "validity" = false →
       hasSubstr (toLowerStr item.label) "reliability" = true →
      proposeAxisScore item secs = Proposal.mk "Unclear" [] [])
    ∧ (hasSubstr (toLowerStr item.label) "aims" = false →
       hasSubstr (toLowerStr item.label) "design appropriate" = false →
       hasSubstr (toLowerStr item.label) "sampling frame" = false →
       hasSubstr (toLowerStr item.label) "validity" = false →
       hasSubstr (toLowerStr item.label) "reliability" = false →
       hasSubstr (toLowerStr item.label) "confounding" = true →
      proposeAxisScore item secs = Proposal.mk "Unclear" [] [])
    ∧ (hasSubstr (toLowerStr item.label) "aims" = false →
       hasSubstr (toLowerStr item.label) "design appropriate" = false →
       hasSubstr (toLowerStr item.label) "sampling frame" = false →
       hasSubstr (toLowerStr item.label) "validity" = false →
       hasSubstr (toLowerStr item.label) "reliability" = false →
       hasSubstr (toLowerStr item.label) "confounding" = false →
       hasSubstr (toLowerStr item.label) "statistical methods" = true →
      proposeAxisScore item secs = Proposal.mk "Unclear" [] [])
    ∧ (hasSubstr (toLowerStr item.label) "aims" = false →
       hasSubstr (toLowerStr item.label) "design appropriate" = false →
       hasSubstr (toLowerStr item.label) "sampling frame" = false →
       hasSubstr (toLowerStr item.label) "validity" = false →
       hasSubstr (toLowerStr item.label) "reliability" = false →
       hasSubstr (toLowerStr item.label) "confounding" = false →
       hasSubstr (toLowerStr item.label) "statistical methods" = false →
       hasSubstr (toLowerStr item.label) "precision" = true →
      proposeAxisScore item secs = Proposal.mk "Unclear" [] [])
    ∧ (hasSubstr (toLowerStr item.label) "aims" = false →
       hasSubstr (toLowerStr item.label) "design appropriate" = false →
       hasSubstr (toLowerStr item.label) "sampling frame" = false →
       hasSubstr (toLowerStr item.label) "validity" = false →
       hasSubstr (toLowerStr item.label) "reliability" = false →
       hasSubstr (toLowerStr item.label) "confounding" = false →
       hasSubstr (toLowerStr item.label) "statistical methods" = false →
       hasSubstr (toLowerStr item.label) "precision" = false →
       hasSubstr (toLowerStr item.label) "conclusions justified" = true →
      proposeAxisScore item secs = mkYU (findHits (sectGet secs "Discussion") reConcl 6))
    ∧ (hasSubstr (toLowerStr item.label) "aims" = false →
       hasSubstr (toLowerStr item.label) "design appropriate" = false →
       hasSubstr (toLowerStr item.label) "sampling frame" = false →
       hasSubstr (toLowerStr item.label) "validity" = false →
       hasSubstr (toLowerStr item.label) "reliability" = false →
       hasSubstr (toLowerStr item.label) "confounding" = false →
       hasSubstr (toLowerStr item.label) "statistical methods" = false →
       hasSubstr (toLowerStr item.label) "precision" = false →
       hasSubstr (toLowerStr item.label) "conclusions justified" = false →
       hasSubstr (toLowerStr item.label) "funding" = false →
       hasSubstr (toLowerStr item.label) "ethical" = false →
      proposeAxisScore item secs =
        Proposal.mk "Unclear"
          ((findHits (sectGet secs "Full Text") reAnyChar 6).take 3) []) := by
  refine ⟨?_, ?_, ?_, ?_, ?_, ?_, ?_, ?_, ?_, ?_⟩
  · intro p1
    simp only [proposeAxisScore, h, p1, if_true, strOr]
    simp
  · intro n1 p2
    simp only [proposeAxisScore, h, n1, p2]
    simp
    all_goals rfl
  · intro n1 n2 p3
    simp only [proposeAxisScore, h, n1, n2, p3]
    simp
    all_goals rfl
  · intro n1 n2 n3 p4
    simp only [proposeAxisScore, h, n1, n2, n3, p4]
    simp
    all_goals rfl
  · intro n1 n2 n3 n4 p5
    simp only [proposeAxisScore, h, n1, n2, n3, n4, p5]
    simp
    all_goals rfl
  · intro n1 n2 n3 n4 n5 p6
    simp only [proposeAxisScore, h, n1, n2, n3, n4, n5, p6]
    simp
    all_goals rfl
  · intro n1 n2 n3 n4 n5 n6 p7
    simp only [proposeAxisScore, h, n1, n2, n3, n4, n5, n6, p7]
    simp
    all_goals rfl
  · intro n1 n2 n3 n4 n5 n6 n7 p8
    simp only [proposeAxisScore, h, n1, n2, n3, n4, n5, n6, n7, p8]
    simp
    all_goals rfl
  · intro n1 n2 n3 n4 n5 n6 n7 n8 p9
    simp only [proposeAxisScore, h, n1, n2, n3, n4, n5, n6, n7, n8, p9, strOr]
    simp
  · intro n1 n2 n3 n4 n5 n6 n7 n8 n9 n10 n11
    simp only [proposeAxisScore, h, n1, n2, n3, n4, n5, n6, n7, n8, n9, n10, n11, strOr]
    simp

/-- C1 witness: four concrete items with empty hint joins exercising the
aims fallback, a hint-driven rule with full-text matches ignored, the
Discussion fallback and the default branch's Full-Text placeholder. -/
theorem claim1_hint_fallback_witness :
    (joinHint itemAims (sectionize "Our aim was simple.") = ""
      ∧ proposeAxisScore itemAims (sectionize "Our aim was simple.")
          = mkYU (findHits (sectGet (sectionize "Our aim was simple.") "Full Text") reAims 6))
    ∧ (joinHint itemValidity (sectionize "Convergent validity was strong.") = ""
      ∧ proposeAxisScore itemValidity (sectionize "Convergent validity was strong.")
          = Proposal.mk "Unclear" [] [])
    ∧ (joinHint itemConcl [("Discussion", "Interpret with caution."), ("Full Text", "x")] = ""
      ∧ proposeAxisScore itemConcl [("Discussion", "Interpret with caution."), ("Full Text", "x")]
          = mkYU (findHits (sectGet [("Discussion", "Interpret with caution."),
              ("Full Text", "x")] "Discussion") reConcl 6))
    ∧ (joinHint itemMisc (sectionize "Hello there.") = ""
      ∧ proposeAxisScore itemMisc (sectionize "Hello there.")
          = Proposal.mk "Unclear"
              ((findHits (sectGet (sectionize "Hello there.") "Full Text") reAnyChar 6).take 3) []) :=
  ⟨⟨by decide,
    (claim1_hint_fallback_amended itemAims (sectionize "Our aim was simple.") (by decide)).1 (by decide)⟩,
   ⟨by decide,
    (claim1_hint_fallback_amended itemValidity (sectionize "Convergent validity was strong.")
        (by decide)).2.2.2.1 (by decide) (by decide) (by decide) (by decide)⟩,
   ⟨by decide,
    (claim1_hint_fallback_amended itemConcl
        [("Discussion", "Interpret with caution."), ("Full Text", "x")]
        (by decide)).2.2.2.2.2.2.2.2.1 (by decide) (by decide) (by decide) (by decide)
        (by decide) (by decide) (by decide) (by decide) (by decide)⟩,
   ⟨by decide,
    (claim1_hint_fallback_amended itemMisc (sectionize "Hello there.")
        (by decide)).2.2.2.2.2.2.2.2.2 (by decide) (by decide) (by decide) (by decide)
        (by decide) (by decide) (by decide) (by decide) (by decide) (by decide) (by decide)⟩⟩

/-- C1 counterexample: the claim says the "validity" rule's search text
falls back to "Full Text" when the hint list is empty, so here it would
have to find the matching full-text sentence and propose `Yes`; the code
instead searches the empty joined hint text and returns `Unclear` with no
evidence, even though the Full Text section does contain a matching
sentence. -/
theorem claim1_counterexample :
    proposeAxisScore itemValidity (sectionize "Convergent validity was strong.")
      = Proposal.mk "Unclear" [] []
    ∧ findHits (sectGet (sectionize "Convergent validity was strong.") "Full Text")
        reValidity 6 = ["Convergent validity was strong."] := by decide

/-- C3 (amended): when the knowledge base configures no subcomponent
phrases, the dynamically built pattern is the empty regex, which matches
every string; the subcomponents item therefore keeps the first (up to 6)
sentences of its search text as evidence and proposes `Yes` whenever that
text has any sentence (and `Unclear` with empty evidence only when it has
none). -/
theorem claim3_subcomponents_amended (kb : KBase) (citem : ChecklistItem)
    (secs : List (String × String)) (full : String)
    (hs : allSubcomponents kb = [])
    (h1 : hasSubstr (toLowerStr citem.label) "definition" = false)
    (h2 : hasSubstr (toLowerStr citem.label) "subcomponents" = true) :
    proposeConstructScore kb citem secs full =
      mkYU ((sentences (strOr (joinHint citem secs) full)).take 6) := by
  have hfilter : (sentences (strOr (joinHint citem secs) full)).filter
      (subPatternMatch []) = sentences (strOr (joinHint citem secs) full) :=
    List.filter_eq_self.mpr (fun a _ => rfl)
  simp only [proposeConstructScore, h1, h2, hs, findHits]
  simp [hfilter]

/-- C3 witness: the concrete knowledge base with no subcomponents and a
one-sentence document; the item proposes `Yes` with that sentence. -/
theorem claim3_subcomponents_witness :
    (allSubcomponents kb0 = []
      ∧ hasSubstr (toLowerStr itemSub.label) "definition" = false
      ∧ hasSubstr (toLowerStr itemSub.label) "subcomponents" = true)
    ∧ proposeConstructScore kb0 itemSub (sectionize "Inhibition matters.")
        "Inhibition matters."
      = mkYU ((sentences (strOr (joinHint itemSub (sectionize "Inhibition matters."))
          "Inhibition matters.")).take 6) :=
  ⟨⟨by decide, by decide, by decide⟩,
   claim3_subcomponents_amended kb0 itemSub (sectionize "Inhibition matters.")
     "Inhibition matters." (by decide) (by decide) (by decide)⟩

/-- C3 counterexample: with no subcomponent phrases configured anywhere in
the knowledge base, the claim demands `Unclear` with empty evidence for
every input, but on a one-sentence document the code proposes `Yes` with
that sentence as evidence. -/
theorem claim3_counterexample :
    allSubcomponents kb0 = []
    ∧ proposeConstructScore kb0 itemSub (sectionize "Inhibition matters.")
        "Inhibition matters."
      = Proposal.mk "Yes" ["Inhibition matters."] [] := by decide

/-- C5 (confirmed): on the measures-align item, if some configured alias of
measure `GritS` (such as the exact phrase "Grit-S") occurs whole-word in
the full text and some canonical label of construct `self-control` does
too, the proposal is `Yes` and the warnings contain the fixed jingle-risk
string. -/
theorem claim5_measures_align_jingle (kb : KBase) (citem : ChecklistItem)
    (secs : List (String × String)) (full : String)
    (mnode : MeasureEntry) (cnode : ConstructEntry) (lbl : String)
    (h1 : hasSubstr (toLowerStr citem.label) "definition" = false)
    (h2 : hasSubstr (toLowerStr citem.label) "subcomponents" = false)
    (h3 : hasSubstr (toLowerStr citem.label) "model/theory" = false)
    (h4 : hasSubstr (toLowerStr citem.label) "measures align" = true)
    (hm : ("GritS", mnode) ∈ kb.measures)
    (ha : "Grit-S" ∈ mnode.aliases)
    (hmatch : searchBoundedCI full.data ("Grit-S").data = true)
    (hc : ("self-control", cnode) ∈ kb.constructs)
    (hl : lbl ∈ cnode.canonical)
    (hlm : searchBoundedCI full.data lbl.data = true) :
    (proposeConstructScore kb citem secs full).proposed = "Yes"
    ∧ "Jingle risk: SC label with Grit-S measure."
        ∈ (proposeConstructScore kb citem secs full).warnings := by
  have hfind : (mnode.aliases.find? (fun a => searchBoundedCI full.data a.data)).isSome := by
    rw [List.find?_isSome]
    exact ⟨"Grit-S", ha, hmatch⟩
  obtain ⟨a, hfa⟩ := Option.isSome_iff_exists.mp hfind
  have hhit : MeasureHit.mk "GritS" a mnode.mtype mnode.targets ∈ detectMeasures kb full := by
    unfold detectMeasures
    rw [List.mem_filterMap]
    exact ⟨("GritS", mnode), hm, by simp [hfa]⟩
  have hanyM : (detectMeasures kb full).any (fun m => m.measure == "GritS") = true := by
    rw [List.any_eq_true]
    exact ⟨_, hhit, by simp⟩
  have hne : (detectMeasures kb full).isEmpty = false := by
    cases hdm : detectMeasures kb full with
    | nil => rw [hdm] at hhit; cases hhit
    | cons x xs => rfl
  have hlbl : lbl ∈ ((cnode.canonical ++ cnode.neighbors).filter
      (fun l => searchBoundedCI full.data l.data)).dedup := by
    rw [List.mem_dedup, List.mem_filter]
    exact ⟨List.mem_append_left _ hl, hlm⟩
  have hded : (((cnode.canonical ++ cnode.neighbors).filter
      (fun l => searchBoundedCI full.data l.data)).dedup).isEmpty = false := by
    cases hdd : ((cnode.canonical ++ cnode.neighbors).filter
        (fun l => searchBoundedCI full.data l.data)).dedup with
    | nil => rw [hdd] at hlbl; cases hlbl
    | cons x xs => rfl
  have hcsmem : ("self-control", sortStrs (((cnode.canonical ++ cnode.neighbors).filter
      (fun l => searchBoundedCI full.data l.data)).dedup)) ∈ detectConstructLabels kb full := by
    unfold detectConstructLabels
    rw [List.mem_filterMap]
    refine ⟨("self-control", cnode), hc, ?_⟩
    simp only [hded]
    rfl
  have hanyC : (detectConstructLabels kb full).any (fun p => p.1 == "self-control") = true := by
    rw [List.any_eq_true]
    exact ⟨_, hcsmem, by simp⟩
  constructor
  · simp only [proposeConstructScore, h1, h2, h3, h4]
    simp [hne]
  · simp only [proposeConstructScore, h1, h2, h3, h4]
    simp [hanyM, hanyC]

/-- C5 witness: concrete knowledge base and a full text containing both
"Grit-S" and "self-control"; the hypotheses hold and the conclusion gives
`Yes` plus the jingle warning. -/
theorem claim5_measures_align_jingle_witness :
    (("GritS", MeasureEntry.mk ["Grit-S"] "questionnaire" ["self-control"]) ∈ kb0.measures
      ∧ searchBoundedCI ("We used the Grit-S scale to assess self-control.").data
          ("Grit-S").data = true
      ∧ ("self-control", ConstructEntry.mk ["self-control"] ["willpower"] []) ∈ kb0.constructs
      ∧ searchBoundedCI ("We used the Grit-S scale to assess self-control.").data
          ("self-control").data = true)
    ∧ ((proposeConstructScore kb0 itemAlign
          (sectionize "We used the Grit-S scale to assess self-control.")
          "We used the Grit-S scale to assess self-control.").proposed = "Yes"
      ∧ "Jingle risk: SC label with Grit-S measure."
          ∈ (proposeConstructScore kb0 itemAlign
              (sectionize "We used the Grit-S scale to assess self-control.")
              "We used the Grit-S scale to assess self-control.").warnings) :=
  ⟨⟨by decide, by decide, by decide, by decide⟩,
   claim5_measures_align_jingle kb0 itemAlign
     (sectionize "We used the Grit-S scale to assess self-control.")
     "We used the Grit-S scale to assess self-control."
     (MeasureEntry.mk ["Grit-S"] "questionnaire" ["self-control"])
     (ConstructEntry.mk ["self-control"] ["willpower"] []) "self-control"
     (by decide) (by decide) (by decide) (by decide) (by decide) (by decide)
     (by decide) (by decide) (by decide) (by decide)⟩

/-- C6 (confirmed): on the measures-align item, if no configured alias of
any measure matches the full text, the proposal is exactly `No` with empty
evidence and no warnings. -/
theorem claim6_measures_align_no_measure (kb : KBase) (citem : ChecklistItem)
    (secs : List (String × String)) (full : String)
    (h1 : hasSubstr (toLowerStr citem.label) "definition" = false)
    (h2 : hasSubstr (toLowerStr citem.label) "subcomponents" = false)
    (h3 : hasSubstr (toLowerStr citem.label) "model/theory" = false)
    (h4 : hasSubstr (toLowerStr citem.label) "measures align" = true)
    (hnone : ∀ p ∈ kb.measures, ∀ a ∈ p.2.aliases,
      searchBoundedCI full.data a.data = false) :
    proposeConstructScore kb citem secs full = Proposal.mk "No" [] [] := by
  have hdm : detectMeasures kb full = [] := by
    unfold detectMeasures
    rw [List.filterMap_eq_nil_iff]
    intro p hp
    have hfn : p.2.aliases.find? (fun a => searchBoundedCI full.data a.data) = none := by
      rw [List.find?_eq_none]
      intro a hain
      simp [hnone p hp a hain]
    rw [hfn]
    rfl
  simp only [proposeConstructScore, h1, h2, h3, h4, hdm]
  simp

/-- C6 witness: the concrete knowledge base and a full text matching no
alias; the hypotheses hold and the result is `No` with empty evidence and
no warnings. -/
theorem claim6_measures_align_no_measure_witness :
    ((∀ p ∈ kb0.measures, ∀ a ∈ p.2.aliases,
        searchBoundedCI ("Nothing relevant here.").data a.data = false)
      ∧ hasSubstr (toLowerStr itemAlign.label) "measures align" = true)
    ∧ proposeConstructScore kb0 itemAlign (sectionize "Nothing relevant here.")
        "Nothing relevant here." = Proposal.mk "No" [] [] :=
  ⟨⟨by decide, by decide⟩,
   claim6_measures_align_no_measure kb0 itemAlign
     (sectionize "Nothing relevant here.") "Nothing relevant here."
     (by decide) (by decide) (by decide) (by decide) (by decide)⟩

/-- C7 (amended): for an AXIS item whose label contains "ethical" and none
of the ten earlier dispatch phrases, `propose_axis_score` searches the
ethics detector over the Ethics section text concatenated (with a space)
with the Method section text, returning `Yes` with the matching sentences
when the detector hits and `N/A` otherwise — never `Unclear`.  The
restriction to labels missing the earlier phrases is forced: dispatch is
ordered, so a label such as "aims and ethical" is claimed by an earlier
branch. -/
theorem claim7_ethical_branch_amended (item : ChecklistItem)
    (secs : List (String × String))
    (h1 : hasSubstr (toLowerStr item.label) "aims" = false)
    (h2 : hasSubstr (toLowerStr item.label) "design appropriate" = false)
    (h3 : hasSubstr (toLowerStr item.label) "sampling frame" = false)
    (h4 : hasSubstr (toLowerStr item.label) "validity" = false)
    (h5 : hasSubstr (toLowerStr item.label) "reliability" = false)
    (h6 : hasSubstr (toLowerStr item.label) "confounding" = false)
    (h7 : hasSubstr (toLowerStr item.label) "statistical methods" = false)
    (h8 : hasSubstr (toLowerStr item.label) "precision" = false)
    (h9 : hasSubstr (toLowerStr item.label) "conclusions justified" = false)
    (h10 : hasSubstr (toLowerStr item.label) "funding" = false)
    (h11 : hasSubstr (toLowerStr item.label) "ethical" = true) :
    proposeAxisScore item secs =
      Proposal.mk
        (if (findHits (sectGet secs "Ethics" ++ " " ++ sectGet secs "Method")
            reEthics 6).isEmpty then "N/A" else "Yes")
        (findHits (sectGet secs "Ethics" ++ " " ++ sectGet secs "Method") reEthics 6) []
    ∧ (proposeAxisScore item secs).proposed ≠ "Unclear" := by
  have heq : proposeAxisScore item secs =
      Proposal.mk
        (if (findHits (sectGet secs "Ethics" ++ " " ++ sectGet secs "Method")
            reEthics 6).isEmpty then "N/A" else "Yes")
        (findHits (sectGet secs "Ethics" ++ " " ++ sectGet secs "Method") reEthics 6) [] := by
    simp only [proposeAxisScore, h1, h2, h3, h4, h5, h6, h7, h8, h9, h10, h11]
    simp [mkYNA]
  refine ⟨heq, ?_⟩
  rw [heq]
  cases (findHits (sectGet secs "Ethics" ++ " " ++ sectGet secs "Method")
      reEthics 6).isEmpty <;> simp

/-- C7 witness: a plain "ethical" item and a section map whose Ethics text
is exactly the claim's example sentence; the result is `Yes` and the
evidence holds the sentence verbatim. -/
theorem claim7_ethical_branch_witness :
    (hasSubstr (toLowerStr itemEthical.label) "ethical" = true
      ∧ hasSubstr (toLowerStr itemEthical.label) "aims" = false)
    ∧ (proposeAxisScore itemEthical
        [("Ethics", "The study was approved by the IRB."), ("Full Text", "other")] =
        Proposal.mk
          (if (findHits (sectGet [("Ethics", "The study was approved by the IRB."),
              ("Full Text", "other")] "Ethics" ++ " "
              ++ sectGet [("Ethics", "The study was approved by the IRB."),
              ("Full Text", "other")] "Method") reEthics 6).isEmpty then "N/A" else "Yes")
          (findHits (sectGet [("Ethics", "The study was approved by the IRB."),
              ("Full Text", "other")] "Ethics" ++ " "
              ++ sectGet [("Ethics", "The study was approved by the IRB."),
              ("Full Text", "other")] "Method") reEthics 6) []
      ∧ (proposeAxisScore itemEthical
          [("Ethics", "The study was approved by the IRB."), ("Full Text", "other")]).proposed
        ≠ "Unclear")
    ∧ "The study was approved by the IRB."
        ∈ (proposeAxisScore itemEthical
            [("Ethics", "The study was approved by the IRB."), ("Full Text", "other")]).evidence :=
  ⟨⟨by decide, by decide⟩,
   claim7_ethical_branch_amended itemEthical
     [("Ethics", "The study was approved by the IRB."), ("Full Text", "other")]
     (by decide) (by decide) (by decide) (by decide) (by decide) (by decide)
     (by decide) (by decide) (by decide) (by decide) (by decide),
   by decide⟩

/-- C7 counterexample: the claim quantifies over every item whose label
contains "ethical", but the label "aims and ethical" is dispatched to the
earlier "aims" branch, which here yields `Unclear` — a value the claim says
the ethical rule can never produce (it allows only `Yes` or `N/A`). -/
theorem claim7_counterexample :
    hasSubstr (toLowerStr itemAimsEthical.label) "ethical" = true
    ∧ proposeAxisScore itemAimsEthical
        (sectionize "The study was approved by the IRB.")
      = Proposal.mk "Unclear" [] [] := by decide

/-- Helper for C9: the measure ids of the detected hits form a sublist of
the knowledge base's measure keys. -/
theorem detectMeasures_ids_sublist (kb : KBase) (blob : String) :
    ((detectMeasures kb blob).map (fun m => m.measure)).Sublist
      (kb.measures.map Prod.fst) := by
  unfold detectMeasures
  induction kb.measures with
  | nil => simp
  | cons p rest ih =>
    cases hf : p.2.aliases.find? (fun a => searchBoundedCI blob.data a.data) with
    | none =>
      simp only [List.filterMap_cons, hf, Option.map_none, List.map_cons]
      exact ih.cons p.1
    | some a =>
      simp only [List.filterMap_cons, hf, Option.map_some, List.map_cons]
      exact ih.cons₂ p.1

/-- C9 (confirmed): because the knowledge base's measure dict has unique
keys and each measure contributes at most one hit (the first matching
alias, then the scan stops), `detect_measures` never returns two entries
with the same measure id. -/
theorem claim9_detectMeasures_nodup (kb : KBase) (blob : String)
    (h : (kb.measures.map Prod.fst).Nodup) :
    ((detectMeasures kb blob).map (fun m => m.measure)).Nodup :=
  h.sublist (detectMeasures_ids_sublist kb blob)

/-- C9 witness: the concrete knowledge base has unique measure keys, and
the detected measure ids on a concrete text are duplicate-free. -/
theorem claim9_detectMeasures_nodup_witness :
    (kb0.measures.map Prod.fst).Nodup
    ∧ ((detectMeasures kb0 "We used the Grit-S scale.").map
        (fun m => m.measure)).Nodup :=
  ⟨by decide, claim9_detectMeasures_nodup kb0 "We used the Grit-S scale." (by decide)⟩

/-- C10 (confirmed): the scoring pipeline is a pure function of the item
lists, the knowledge base and the article text; running it on equal inputs
gives equal proposal sets (the shallow embedding has no other state to vary). -/
theorem claim10_pipeline_deterministic (ax₁ ax₂ ad₁ ad₂ : List ChecklistItem)
    (kb₁ kb₂ : KBase) (t₁ t₂ : String)
    (hax : ax₁ = ax₂) (had : ad₁ = ad₂) (hkb : kb₁ = kb₂) (ht : t₁ = t₂) :
    runPipeline ax₁ ad₁ kb₁ t₁ = runPipeline ax₂ ad₂ kb₂ t₂ := by
  rw [hax, had, hkb, ht]

/-- C10 witness: two runs of the pipeline on identical concrete input
produce identical results. -/
theorem claim10_pipeline_deterministic_witness :
    runPipeline [itemValidity] [itemAlign] kb0 "We used the Grit-S scale."
      = runPipeline [itemValidity] [itemAlign] kb0 "We used the Grit-S scale." :=
  claim10_pipeline_deterministic [itemValidity] [itemValidity] [itemAlign] [itemAlign]
    kb0 kb0 "We used the Grit-S scale." "We used the Grit-S scale."
    rfl rfl rfl rfl

end Axis

namespace Axis

/-- Helper for C2: every piece produced by the sentence splitter is a
contiguous stretch of the already-read prefix plus the remaining input. -/
theorem splitAux_mem_within (cs : List Char) : ∀ (acc : List Char) (s : String),
    s ∈ splitSentencesAux cs acc → s.data <:+: (acc.reverse ++ cs) := by
  induction cs with
  | nil =>
    intro acc s h
    simp only [splitSentencesAux, List.mem_singleton] at h
    subst h
    rw [List.append_nil]
  | cons c rest ih =>
    intro acc s h
    simp only [splitSentencesAux] at h
    by_cases hc : (c == ' ' && splitHere acc rest) = true
    · rw [if_pos hc] at h
      rcases List.mem_cons.mp h with h1 | h2
      · subst h1
        exact (List.prefix_append acc.reverse (c :: rest)).isInfix
      · have h3 := ih [] s h2
        simp only [List.reverse_nil, List.nil_append] at h3
        have hsuf : rest <:+: acc.reverse ++ (c :: rest) :=
          ((List.suffix_cons c rest).trans
            (List.suffix_append acc.reverse (c :: rest))).isInfix
        exact h3.trans hsuf
    · rw [if_neg hc] at h
      have h3 := ih (c :: acc) s h
      rw [List.reverse_cons, List.append_assoc] at h3
      exact h3

/-- Helper for C2: stripping whitespace keeps a contiguous stretch. -/
theorem stripChars_within (cs : List Char) : stripChars cs <:+: cs := by
  unfold stripChars
  have h1 : cs.dropWhile pyIsSpace <:+ cs := List.dropWhile_suffix pyIsSpace
  have h2 : (cs.dropWhile pyIsSpace).reverse.dropWhile pyIsSpace
      <:+ (cs.dropWhile pyIsSpace).reverse := List.dropWhile_suffix pyIsSpace
  have h3 : ((cs.dropWhile pyIsSpace).reverse.dropWhile pyIsSpace).reverse
      <+: cs.dropWhile pyIsSpace := by
    rw [← List.reverse_suffix, List.reverse_reverse]
    exact h2
  exact h3.isInfix.trans h1.isInfix

/-- Helper for C2: every sentence is a contiguous stretch of the
whitespace-collapsed text it was segmented from. -/
theorem mem_sentences_within (t s : String) (h : s ∈ sentences t) :
    s.data <:+: (collapseWS t).data := by
  unfold sentences at h
  have h1 := List.mem_of_mem_filter h
  rcases List.mem_map.mp h1 with ⟨piece, hpmem, hps⟩
  subst hps
  have h2 := splitAux_mem_within (collapseWS t).data [] piece hpmem
  simp only [List.reverse_nil, List.nil_append] at h2
  exact (stripChars_within piece.data).trans h2

/-- Helper for C2: every hit `find_hits` returns is a contiguous stretch of
the normalized (whitespace-collapsed) search text. -/
theorem mem_findHits_within (blob : String) (p : String → Bool) (n : Nat)
    (s : String) (h : s ∈ findHits blob p n) : s.data <:+: (collapseWS blob).data := by
  unfold findHits at h
  exact mem_sentences_within blob s (List.mem_of_mem_filter (List.mem_of_mem_take h))

/-- C2 (amended, full): every evidence string produced through `find_hits`
is verbatim — a contiguous stretch of the whitespace-normalized search
text.  For `propose_axis_score` this covers every branch (the blob is one
of the five `axisSearchBlobs`); for `propose_construct_score` it covers the
definition, subcomponents, model/theory and evidence-type-supports branches
(the blob is the hint text or the full text) — the "measures align" and
"jingle–jangle" branches are excluded because they emit formatted summary
lines, not article sentences. -/
theorem claim2_evidence_verbatim_amended (item citem : ChecklistItem)
    (secs : List (String × String)) (kb : KBase) (full : String) :
    (∀ e ∈ (proposeAxisScore item secs).evidence,
      ∃ b ∈ axisSearchBlobs item secs, e.data <:+: (collapseWS b).data)
    ∧ (hasSubstr (toLowerStr citem.label) "measures align" = false →
       hasSubstr (toLowerStr citem.label) "jingle–jangle" = false →
       ∀ e ∈ (proposeConstructScore kb citem secs full).evidence,
        ∃ b ∈ [strOr (joinHint citem secs) full, full],
          e.data <:+: (collapseWS b).data) := by
  constructor
  · intro e h
    have m1 : strOr (joinHint item secs) (sectGet secs "Full Text")
        ∈ axisSearchBlobs item secs := by simp [axisSearchBlobs]
    have m2 : joinHint item secs ∈ axisSearchBlobs item secs := by
      simp [axisSearchBlobs]
    have m3 : strOr (joinHint item secs) (sectGet secs "Discussion")
        ∈ axisSearchBlobs item secs := by simp [axisSearchBlobs]
    have m4 : sectGet secs "Funding" ++ " " ++ sectGet secs "Acknowledgements"
        ∈ axisSearchBlobs item secs := by simp [axisSearchBlobs]
    have m5 : sectGet secs "Ethics" ++ " " ++ sectGet secs "Method"
        ∈ axisSearchBlobs item secs := by simp [axisSearchBlobs]
    unfold proposeAxisScore at h
    by_cases c1 : hasSubstr (toLowerStr item.label) "aims" = true
    · rw [if_pos c1] at h
      exact ⟨_, m1, mem_findHits_within _ _ _ _ h⟩
    rw [if_neg c1] at h
    by_cases c2 : hasSubstr (toLowerStr item.label) "design appropriate" = true
    · rw [if_pos c2] at h
      exact ⟨_, m2, mem_findHits_within _ _ _ _ h⟩
    rw [if_neg c2] at h
    by_cases c3 : hasSubstr (toLowerStr item.label) "sampling frame" = true
    · rw [if_pos c3] at h
      exact ⟨_, m2, mem_findHits_within _ _ _ _ h⟩
    rw [if_neg c3] at h
    by_cases c4 : hasSubstr (toLowerStr item.label) "validity" = true
    · rw [if_pos c4] at h
      exact ⟨_, m2, mem_findHits_within _ _ _ _ h⟩
    rw [if_neg c4] at h
    by_cases c5 : hasSubstr (toLowerStr item.label) "reliability" = true
    · rw [if_pos c5] at h
      exact ⟨_, m2, mem_findHits_within _ _ _ _ h⟩
    rw [if_neg c5] at h
    by_cases c6 : hasSubstr (toLowerStr item.label) "confounding" = true
    · rw [if_pos c6] at h
      exact ⟨_, m2, mem_findHits_within _ _ _ _ h⟩
    rw [if_neg c6] at h
    by_cases c7 : hasSubstr (toLowerStr item.label) "statistical methods" = true
    · rw [if_pos c7] at h
      exact ⟨_, m2, mem_findHits_within _ _ _ _ h⟩
    rw [if_neg c7] at h
    by_cases c8 : hasSubstr (toLowerStr item.label) "precision" = true
    · rw [if_pos c8] at h
      exact ⟨_, m2, mem_findHits_within _ _ _ _ h⟩
    rw [if_neg c8] at h
    by_cases c9 : hasSubstr (toLowerStr item.label) "conclusions justified" = true
    · rw [if_pos c9] at h
      exact ⟨_, m3, mem_findHits_within _ _ _ _ h⟩
    rw [if_neg c9] at h
    by_cases c10 : hasSubstr (toLowerStr item.label) "funding" = true
    · rw [if_pos c10] at h
      exact ⟨_, m4, mem_findHits_within _ _ _ _ h⟩
    rw [if_neg c10] at h
    by_cases c11 : hasSubstr (toLowerStr item.label) "ethical" = true
    · rw [if_pos c11] at h
      exact ⟨_, m5, mem_findHits_within _ _ _ _ h⟩
    rw [if_neg c11] at h
    exact ⟨_, m1, mem_findHits_within _ _ _ _ (List.mem_of_mem_take h)⟩
  · intro hm hj e he
    have n1 : strOr (joinHint citem secs) full
        ∈ [strOr (joinHint citem secs) full, full] := by simp
    have n2 : full ∈ [strOr (joinHint citem secs) full, full] := by simp
    unfold proposeConstructScore at he
    by_cases d1 : hasSubstr (toLowerStr citem.label) "definition" = true
    · rw [if_pos d1] at he
      exact ⟨_, n1, mem_findHits_within _ _ _ _ he⟩
    rw [if_neg d1] at he
    by_cases d2 : hasSubstr (toLowerStr citem.label) "subcomponents" = true
    · rw [if_pos d2] at he
      exact ⟨_, n1, mem_findHits_within _ _ _ _ he⟩
    rw [if_neg d2] at he
    by_cases d3 : hasSubstr (toLowerStr citem.label) "model/theory" = true
    · rw [if_pos d3] at he
      exact ⟨_, n1, mem_findHits_within _ _ _ _ he⟩
    rw [if_neg d3] at he
    rw [if_neg (by simp [hm])] at he
    rw [if_neg (by simp [hj])] at he
    by_cases d6 : hasSubstr (toLowerStr citem.label) "evidence type supports" = true
    · rw [if_pos d6] at he
      rcases List.mem_append.mp he with hv | hf
      · exact ⟨_, n2, mem_findHits_within _ _ _ _ hv⟩
      · exact ⟨_, n2, mem_findHits_within _ _ _ _ hf⟩
    rw [if_neg d6] at he
    simp at he

/-- C2 witness: a concrete aims item and a concrete definition item whose
evidence sentences are contiguous stretches of their normalized search
blobs. -/
theorem claim2_evidence_verbatim_witness :
    ("Our aim was simple."
        ∈ (proposeAxisScore itemAims (sectionize "Our aim was simple.")).evidence
      ∧ ∃ b ∈ axisSearchBlobs itemAims (sectionize "Our aim was simple."),
          ("Our aim was simple.").data <:+: (collapseWS b).data)
    ∧ ("Grit is defined as passion."
        ∈ (proposeConstructScore kb0 itemDef
            (sectionize "Grit is defined as passion.")
            "Grit is defined as passion.").evidence
      ∧ ∃ b ∈ [strOr (joinHint itemDef (sectionize "Grit is defined as passion."))
            "Grit is defined as passion.", "Grit is defined as passion."],
          ("Grit is defined as passion.").data <:+: (collapseWS b).data) :=
  ⟨⟨by decide,
    (claim2_evidence_verbatim_amended itemAims itemDef (sectionize "Our aim was simple.") kb0
        "Grit is defined as passion.").1 "Our aim was simple." (by decide)⟩,
   ⟨by decide,
    (claim2_evidence_verbatim_amended itemAims itemDef (sectionize "Grit is defined as passion.") kb0
        "Grit is defined as passion.").2 (by decide) (by decide)
      "Grit is defined as passion." (by decide)⟩⟩

/-- C2 counterexample: the "measures align" branch returns the generated
string "Grit-S → self-control", which sits in the evidence yet is not a
contiguous stretch of the article's normalized text, refuting the claim for
that branch. -/
theorem claim2_counterexample :
    "Grit-S → self-control" ∈ (proposeConstructScore kb0 itemAlign
        (sectionize "We used the Grit-S scale to assess self-control.")
        "We used the Grit-S scale to assess self-control.").evidence
    ∧ ¬ (("Grit-S → self-control").data <:+:
        (collapseWS "We used the Grit-S scale to assess self-control.").data) := by
  constructor
  · decide
  · decide

/-- Helper for C4: a heading found by `SECTION_HEAD` is one of the
title-cased alternative words. -/
theorem findHeading_mem_headWords (line : String) (w : String)
    (h : findHeading line = some w) : w ∈ headWords := by
  unfold findHeading at h
  rcases List.exists_of_findSome?_eq_some h with ⟨i, _, hfind⟩
  exact List.mem_of_find?_eq_some hfind

/-- Helper for C4: appending a line adds at most the key `k` to the dict. -/
theorem keys_appendToKey (secs : List (String × List String)) (k : String)
    (line : String) (a : String) :
    a ∈ (appendToKey secs k line).map Prod.fst → a ∈ secs.map Prod.fst ∨ a = k := by
  induction secs with
  | nil =>
    intro h
    simp only [appendToKey, List.map_cons, List.map_nil, List.mem_singleton] at h
    exact Or.inr h
  | cons p rest ih =>
    intro h
    obtain ⟨q, ls⟩ := p
    simp only [appendToKey] at h
    by_cases hk : (q == k) = true
    · rw [if_pos hk] at h
      simp only [List.map_cons, List.mem_cons] at h ⊢
      tauto
    · rw [if_neg hk] at h
      simp only [List.map_cons, List.mem_cons] at h ⊢
      rcases h with h | h
      · exact Or.inl (Or.inl h)
      · rcases ih h with h2 | h2
        · exact Or.inl (Or.inr h2)
        · exact Or.inr h2

/-- Helper for C4: `setdefault` adds at most the key `k` to the dict. -/
theorem keys_ensureKey (secs : List (String × List String)) (k a : String)
    (h : a ∈ (ensureKey secs k).map Prod.fst) : a ∈ secs.map Prod.fst ∨ a = k := by
  unfold ensureKey at h
  by_cases hc : (secs.any fun p => p.1 == k) = true
  · rw [if_pos hc] at h
    exact Or.inl h
  · rw [if_neg hc] at h
    rw [List.map_append, List.mem_append] at h
    rcases h with h | h
    · exact Or.inl h
    · simp at h
      exact Or.inr h

/-- Helper for C4: the fold of `sectionize` only ever creates allowed keys. -/
theorem foldl_keys_allowed (ls : List String) :
    ∀ (cur : String) (secs : List (String × List String)),
    (∀ a ∈ secs.map Prod.fst, a = "Full Text" ∨ a ∈ headWords) →
    (cur = "Full Text" ∨ cur ∈ headWords) →
    ∀ a ∈ ((ls.foldl sectionizeStep (cur, secs)).2).map Prod.fst,
      a = "Full Text" ∨ a ∈ headWords := by
  induction ls with
  | nil =>
    intro cur secs hsecs _ a ha
    exact hsecs a ha
  | cons l rest ih =>
    intro cur secs hsecs hcur a ha
    rw [List.foldl_cons] at ha
    cases hh : findHeading l with
    | some sec =>
      rw [show sectionizeStep (cur, secs) l = (sec, appendToKey (ensureKey secs sec) sec l)
        from by simp [sectionizeStep, hh]] at ha
      have hsec : sec = "Full Text" ∨ sec ∈ headWords :=
        Or.inr (findHeading_mem_headWords l sec hh)
      refine ih sec _ ?_ hsec a ha
      intro b hb
      rcases keys_appendToKey _ _ _ _ hb with hb2 | hb2
      · rcases keys_ensureKey _ _ _ hb2 with hb3 | hb3
        · exact hsecs b hb3
        · rw [hb3]
          exact hsec
      · rw [hb2]
        exact hsec
    | none =>
      rw [show sectionizeStep (cur, secs) l = (cur, appendToKey secs cur l)
        from by simp [sectionizeStep, hh]] at ha
      refine ih cur _ ?_ hcur a ha
      intro b hb
      rcases keys_appendToKey _ _ _ _ hb with hb2 | hb2
      · exact hsecs b hb2
      · rw [hb2]
        exact hcur

/-- C4 (amended): every key of `sectionize(text)` is the sentinel
"Full Text" or one of the title-cased heading words of `SECTION_HEAD` — a
vocabulary that, because of the optional `s?` groups, also contains the
singular forms Measure, Participant and Result missing from the claim's
15-word list. -/
theorem claim4_section_keys_amended (text : String) (k : String)
    (h : k ∈ (sectionize text).map Prod.fst) :
    k = "Full Text" ∨ k ∈ headWords := by
  have hkeys : (sectionize text).map Prod.fst = (sectionizeRaw text).map Prod.fst := by
    unfold sectionize
    rw [List.map_map]
    rfl
  rw [hkeys] at h
  unfold sectionizeRaw at h
  refine foldl_keys_allowed (pySplitLines text) "Full Text" [("Full Text", [])]
    ?_ (Or.inl rfl) k h
  intro a ha
  simp at ha
  exact Or.inl ha

/-- C4 witness: a document with no headings has the key "Full Text", which
the amended vocabulary admits. -/
theorem claim4_section_keys_witness :
    "Full Text" ∈ (sectionize "plain line").map Prod.fst
    ∧ ("Full Text" = "Full Text" ∨ "Full Text" ∈ headWords) :=
  ⟨by decide, claim4_section_keys_amended "plain line" "Full Text" (by decide)⟩

/-- C4 counterexample: the single-word line "Measure" opens a section whose
key is the singular "Measure", which is not in the claim's closed 15-word
vocabulary. -/
theorem claim4_counterexample :
    "Measure" ∈ (sectionize "Measure").map Prod.fst
    ∧ "Measure" ∉ specSectionVocab := by
  constructor
  · decide
  · decide

end Axis

namespace Axis

/-- Helper for C8: the line/section assignment lists exactly the input
lines, in order. -/
theorem lineSection_map_snd (ls : List String) :
    ∀ cur, (lineSection cur ls).map Prod.snd = ls := by
  induction ls with
  | nil =>
    intro cur
    rfl
  | cons l rest ih =>
    intro cur
    cases hh : findHeading l with
    | some sec => simp [lineSection, hh, ih]
    | none => simp [lineSection, hh, ih]

/-- Helper for C8: appending a line to key `q` extends exactly that key's
buffer by the line and leaves every other buffer unchanged. -/
theorem bufGet_appendToKey (secs : List (String × List String)) (q : String)
    (line : String) (k : String) :
    bufGet (appendToKey secs q line) k =
      if k = q then bufGet secs k ++ [line] else bufGet secs k := by
  induction secs with
  | nil =>
    by_cases hk : k = q
    · subst hk
      simp [appendToKey, bufGet]
    · have hqk : (q == k) = false := beq_eq_false_iff_ne.mpr (Ne.symm hk)
      simp [appendToKey, bufGet, hqk, hk]
  | cons p rest ih =>
    obtain ⟨w, ls⟩ := p
    by_cases hw : (w == q) = true
    · have hwq : w = q := beq_iff_eq.mp hw
      simp only [appendToKey, hw, if_true]
      by_cases hk : k = q
      · subst hk
        have hwk : (w == k) = true := by rw [hwq]; exact beq_self_eq_true k
        simp [bufGet, hwk]
      · have hwk : (w == k) = false := by
          rw [hwq]
          exact beq_eq_false_iff_ne.mpr (Ne.symm hk)
        simp [bufGet, hwk, hk]
    · simp only [appendToKey, hw, if_false]
      by_cases hwk : (w == k) = true
      · have hkq : ¬ k = q := by
          intro hkq
          rw [beq_iff_eq.mp hwk, hkq] at hw
          exact hw (beq_self_eq_true q)
        simp [bufGet, hwk, hkq]
      · simp [bufGet, hwk, ih]

/-- Helper for C8: appending a fresh empty buffer changes no lookup. -/
theorem bufGet_append_empty (secs : List (String × List String)) (q k : String) :
    bufGet (secs ++ [(q, [])]) k = bufGet secs k := by
  induction secs with
  | nil =>
    by_cases hq : (q == k) = true <;> simp [bufGet, hq]
  | cons p rest ih =>
    by_cases hp : (p.1 == k) = true <;> simp [bufGet, hp, ih]

/-- Helper for C8: `setdefault` changes no lookup. -/
theorem bufGet_ensureKey (secs : List (String × List String)) (q k : String) :
    bufGet (ensureKey secs q) k = bufGet secs k := by
  unfold ensureKey
  by_cases hc : (secs.any fun p => p.1 == q) = true
  · rw [if_pos hc]
  · rw [if_neg hc]
    exact bufGet_append_empty secs q k

/-- Helper for C8: after folding the remaining lines, each buffer equals
its old contents followed by the lines the assignment sends to that key. -/
theorem foldl_bufGet (ls : List String) :
    ∀ (cur : String) (secs : List (String × List String)) (k : String),
    bufGet ((ls.foldl sectionizeStep (cur, secs)).2) k =
      bufGet secs k ++ ((lineSection cur ls).filter (fun p => p.1 == k)).map Prod.snd := by
  induction ls with
  | nil =>
    intro cur secs k
    simp [lineSection]
  | cons l rest ih =>
    intro cur secs k
    rw [List.foldl_cons]
    cases hh : findHeading l with
    | some sec =>
      rw [show sectionizeStep (cur, secs) l = (sec, appendToKey (ensureKey secs sec) sec l)
        from by simp [sectionizeStep, hh]]
      rw [ih sec _ k, bufGet_appendToKey, bufGet_ensureKey]
      simp only [lineSection, hh]
      by_cases hk : k = sec
      · subst hk
        rw [if_pos rfl]
        rw [List.filter_cons_of_pos (by simp), List.map_cons, List.append_assoc]
        rfl
      · rw [if_neg hk]
        rw [List.filter_cons_of_neg (by simp [Ne.symm hk])]
    | none =>
      rw [show sectionizeStep (cur, secs) l = (cur, appendToKey secs cur l)
        from by simp [sectionizeStep, hh]]
      rw [ih cur _ k, bufGet_appendToKey]
      simp only [lineSection, hh]
      by_cases hk : k = cur
      · subst hk
        rw [if_pos rfl]
        rw [List.filter_cons_of_pos (by simp), List.map_cons, List.append_assoc]
        rfl
      · rw [if_neg hk]
        rw [List.filter_cons_of_neg (by simp [Ne.symm hk])]

/-- C8 (confirmed): line-level round trip of `sectionize`.  The line/section
assignment lists every input line exactly once, verbatim and in original
order, and every buffer of the section dict is exactly the in-order
selection of the lines assigned to its key — so merging the buffers back in
original line order reconstructs the article's line sequence with no line
dropped, duplicated or altered. -/
theorem claim8_sectionize_roundtrip (text : String) :
    (lineAssign text).map Prod.snd = pySplitLines text
    ∧ ∀ k, bufGet (sectionizeRaw text) k =
        ((lineAssign text).filter (fun p => p.1 == k)).map Prod.snd := by
  constructor
  · exact lineSection_map_snd (pySplitLines text) "Full Text"
  · intro k
    unfold sectionizeRaw lineAssign
    rw [foldl_bufGet]
    have h0 : bufGet [("Full Text", [])] k = [] := by
      by_cases h : ("Full Text" == k) = true <;> simp [bufGet, h]
    rw [h0, List.nil_append]

end Axis
